import Mathlib

/-!
A shallow embedding of `src/main.c` of the DMA descriptor-chain example
(Infineon CE241829), together with a model of the descriptor-chained
block-copy engine described by the specification.  Bytes are modelled as
natural numbers below 256, memory regions as lists of bytes, and the
console as the list of bytes emitted in order.
-/

namespace DmaChain

/-- A byte string rendered as the list of its character codes, the byte
stream a C string literal denotes (without the terminating NUL). -/
def strB (s : String) : List Nat := s.data.map Char.toNat

/-- From src/main.c line 58: `#define DMAC_TRANSFER_SIZE 16UL`. -/
def DMAC_TRANSFER_SIZE : Nat := 16

/-- From src/main.c line 71: `const uint8_t g_region1Src[DMAC_TRANSFER_SIZE] = "PSoC4_HVMS-DMADC";`
The 16-character literal exactly fills the 16-byte array, so no NUL is stored. -/
def g_region1Src : List Nat := strB "PSoC4_HVMS-DMADC"

/-- From src/main.c line 72: `uint8_t g_region1Dst[DMAC_TRANSFER_SIZE] = {0UL};`
(the initial contents of the mutable destination array). -/
def g_region1Dst : List Nat := List.replicate DMAC_TRANSFER_SIZE 0

/-- From src/main.c line 73: `const uint8_t g_region2Src[DMAC_TRANSFER_SIZE] = "PSoC4_HVMS-DMADC";`. -/
def g_region2Src : List Nat := strB "PSoC4_HVMS-DMADC"

/-- From src/main.c line 74: `uint8_t g_region2Dst[DMAC_TRANSFER_SIZE] = {0UL};`
(the initial contents of the mutable destination array). -/
def g_region2Dst : List Nat := List.replicate DMAC_TRANSFER_SIZE 0

/-! ## The PONG print loops (src/main.c lines 173 and 183)

`for (uint32_t i = 15; i < DMAC_TRANSFER_SIZE; i--)` — the index is an
unsigned 32-bit integer, so `i--` at `i = 0` wraps around to `2^32 - 1`. -/

/-- The unsigned 32-bit decrement `i--` of the loop index: two's-complement
subtraction of 1 modulo `2^32`. -/
def dec32 (i : Nat) : Nat := (i + (2 ^ 32 - 1)) % 2 ^ 32

/-- The sequence of index values visited by the loop
`for (uint32_t i = i0; i < DMAC_TRANSFER_SIZE; i--)`, run with an iteration
budget `fuel` (the loop itself has no bound; the budget lets the run be
evaluated, and the theorems show every budget of at least 16 iterations
yields the same complete trace, i.e. the loop terminates in 16 iterations). -/
def loopFrom : Nat → Nat → List Nat
  | 0, _ => []
  | fuel + 1, i =>
    if i < DMAC_TRANSFER_SIZE then i :: loopFrom fuel (dec32 i) else []

/-- The complete trace of loop index values of the PONG print loops:
starting at `i = 15`, which takes exactly 16 iterations. -/
def pongIdx : List Nat := loopFrom 16 15

/-- One body iteration of each print loop appends one byte (the element of
the printed region at the loop index) to the console stream; a forward loop
`for (uint8_t i = 0; i < DMAC_TRANSFER_SIZE; i++)` (src/main.c lines 152
and 162) visits indices 0..15 in order. -/
def printFwd (region : List Nat) : List Nat :=
  (List.range DMAC_TRANSFER_SIZE).foldl (fun acc i => acc ++ [region.getD i 0]) []

/-- The byte stream emitted by a PONG print loop (src/main.c lines 173-178
and 183-188): the bytes of the region at the wrapped-decrement loop's
index trace. -/
def printRev (region : List Nat) : List Nat :=
  pongIdx.foldl (fun acc i => acc ++ [region.getD i 0]) []

/-! ## Helper lemmas about the loops -/

theorem foldl_append_singleton (f : Nat → Nat) :
    ∀ (idxs : List Nat) (acc : List Nat),
      idxs.foldl (fun acc i => acc ++ [f i]) acc = acc ++ idxs.map f := by
  intro idxs
  induction idxs with
  | nil => intro acc; simp
  | cons j t ih => intro acc; simp [List.foldl_cons, ih]

theorem loopFrom_of_ge (fuel i : Nat) (h : DMAC_TRANSFER_SIZE ≤ i) :
    loopFrom fuel i = [] := by
  cases fuel with
  | zero => rfl
  | succ f => simp [loopFrom, Nat.not_lt.mpr h]

theorem dec32_zero : dec32 0 = 2 ^ 32 - 1 := by decide

theorem dec32_of_pos (i : Nat) (h0 : 0 < i) (h : i < 2 ^ 32) :
    dec32 i = i - 1 := by
  unfold dec32
  omega

/-- For every iteration budget that covers it, the loop starting at
`i < 16` visits exactly `i, i-1, …, 0` and then stops. -/
theorem loopFrom_eval :
    ∀ i, i < DMAC_TRANSFER_SIZE → ∀ fuel, i + 1 ≤ fuel →
      loopFrom fuel i = (List.range (i + 1)).reverse := by
  intro i
  induction i with
  | zero =>
    intro _ fuel hf
    obtain ⟨f, rfl⟩ : ∃ f, fuel = f + 1 := ⟨fuel - 1, by omega⟩
    have h1 : loopFrom f (dec32 0) = [] := by
      refine loopFrom_of_ge f _ ?_
      rw [dec32_zero]; decide
    simp [loopFrom, DMAC_TRANSFER_SIZE, h1]
    decide
  | succ j ih =>
    intro hj fuel hf
    obtain ⟨f, rfl⟩ : ∃ f, fuel = f + 1 := ⟨fuel - 1, by omega⟩
    have hd : dec32 (j + 1) = j := by
      rw [dec32_of_pos (j + 1) (by omega) (by unfold DMAC_TRANSFER_SIZE at hj; omega)]
      omega
    have hrec : loopFrom f j = (List.range (j + 1)).reverse :=
      ih (by unfold DMAC_TRANSFER_SIZE at hj ⊢; omega) f (by omega)
    have hguard : j + 1 < DMAC_TRANSFER_SIZE := hj
    simp only [loopFrom, if_pos hguard, hd, hrec]
    simp [List.range_succ]

theorem pongIdx_eq : pongIdx = (List.range 16).reverse := by decide

theorem printFwd_eq_map (region : List Nat) :
    printFwd region = (List.range 16).map (fun i => region.getD i 0) := by
  unfold printFwd DMAC_TRANSFER_SIZE
  rw [foldl_append_singleton]
  simp

theorem printRev_eq_map (region : List Nat) :
    printRev region = ((List.range 16).reverse).map (fun i => region.getD i 0) := by
  unfold printRev
  rw [pongIdx_eq, foldl_append_singleton]
  simp

theorem range_map_getD :
    ∀ region : List Nat,
      (List.range region.length).map (fun i => region.getD i 0) = region := by
  intro region
  induction region with
  | nil => simp
  | cons a t ih =>
    have : List.range (t.length + 1) = 0 :: (List.range t.length).map Nat.succ :=
      List.range_succ_eq_map t.length
    simp only [List.length_cons, this, List.map_cons, List.map_map]
    refine congrArg (a :: ·) ?_
    calc ((List.range t.length).map fun i => (a :: t).getD (Nat.succ i) 0)
        = (List.range t.length).map fun i => t.getD i 0 := by
          refine List.map_congr_left ?_
          intro i _
          simp [List.getD_cons_succ]
      _ = t := ih

theorem printFwd_of_len16 (region : List Nat) (h : region.length = 16) :
    printFwd region = region := by
  rw [printFwd_eq_map, ← h, range_map_getD]

theorem printRev_of_len16 (region : List Nat) (h : region.length = 16) :
    printRev region = region.reverse := by
  rw [printRev_eq_map, List.map_reverse, ← h, range_map_getD]

/-! ## Console output of the run (src/main.c lines 134-193)

Each `Cy_SCB_UART_PutString` / `Cy_SCB_UART_Put` call appends bytes to the
console stream; the `while (!Cy_SCB_UART_IsTxComplete(...))` busy-waits
block until the transport is ready and emit nothing.  The destination
regions are read after the wait loop; their contents at that point are the
parameters `d1` and `d2`. -/

/-- The byte stream written to the UART by a run of `main` that reaches the
reporting phase, as a function of the contents `d1` of `g_region1Dst` and
`d2` of `g_region2Dst` when they are read back. -/
def mainEmits (d1 d2 : List Nat) : List Nat :=
  strB "\x1b[2J\x1b[;H"
  ++ strB "************************************************************\r\n"
  ++ strB "DMA Data Transfer with Descriptor Chain \r\n"
  ++ strB "************************************************************\r\n\n"
  ++ strB "PING source = " ++ printFwd g_region1Src ++ strB "\r\n"
  ++ strB "PING destination = " ++ printFwd d1 ++ strB "\r\n"
  ++ strB "PONG source = " ++ printRev g_region2Src ++ strB "\r\n"
  ++ strB "PONG destination = " ++ printRev d2 ++ strB "\r\n"
  ++ strB "- DMA transfer is completed. \r\n"

/-! ## The descriptor-chained transfer engine

The DMAC hardware and its PDL driver are not part of this repository.
Modelled from the spec: a channel owns the two-descriptor chain ping → pong;
a descriptor's completion flag is Pending until its copy retires, then Done;
execution starts on the software trigger and is strictly sequential (ping
completes fully before pong begins); each descriptor copies
`DMAC_TRANSFER_SIZE` bytes from its bound source region to its bound
destination region (bindings from src/main.c lines 115-122). -/

/-- A descriptor completion flag as returned by `poll_status`. -/
inductive Resp
  | pending
  | done
deriving DecidableEq, BEq, Repr

/-- The mutable state of the transfer: the four memory regions, the two
descriptor completion flags, and whether the software trigger has fired. -/
structure DmaState where
  src1 : List Nat
  dst1 : List Nat
  src2 : List Nat
  dst2 : List Nat
  ping : Resp
  pong : Resp
  triggered : Bool
deriving DecidableEq, Repr

/-- The state after `Cy_DMAC_Channel_Enable`/`Cy_DMAC_Enable`, before the
software trigger: regions as initialised at load time (src/main.c lines
71-74), both descriptors pending. -/
def initState : DmaState :=
  { src1 := g_region1Src, dst1 := g_region1Dst
    src2 := g_region2Src, dst2 := g_region2Dst
    ping := .pending, pong := .pending, triggered := false }

/-- Modelled from the spec: the atomic transitions of the transfer.
`trigger` is the software trigger (src/main.c line 144); `execPing` retires
the ping descriptor, copying its 16 bytes, and may fire only after the
trigger; `execPong` retires the pong descriptor and may fire only after
ping is done (strict sequential chain execution). -/
inductive DmaStep : DmaState → DmaState → Prop
  | trigger (s : DmaState) :
      DmaStep s { s with triggered := true }
  | execPing (s : DmaState) (ht : s.triggered = true) (hp : s.ping = .pending) :
      DmaStep s { s with dst1 := s.src1.take DMAC_TRANSFER_SIZE, ping := .done }
  | execPong (s : DmaState) (hd : s.ping = .done) (hp : s.pong = .pending) :
      DmaStep s { s with dst2 := s.src2.take DMAC_TRANSFER_SIZE, pong := .done }

/-- The states the transfer can reach from `initState`. -/
inductive Reachable : DmaState → Prop
  | init : Reachable initState
  | step {s t : DmaState} : Reachable s → DmaStep s t → Reachable t

/-! ## The completion wait loop (src/main.c line 147)

`while (CY_DMAC_DONE == Cy_DMAC_Descriptor_GetResponse(..., CY_DMAC_DESCRIPTOR_PONG));`
`Cy_DMAC_Descriptor_GetResponse` on the pong descriptor is the
`poll_status` primitive of the spec, returning that descriptor's completion
flag. -/

/-- The successful-completion response code the loop compares against;
`poll_status` yields it exactly when the descriptor is done. -/
def CY_DMAC_DONE : Resp := .done

/-- One evaluation of the wait-loop guard of src/main.c line 147: the loop
body runs again exactly when the polled pong response equals
`CY_DMAC_DONE`. -/
def waitGuard (pongResp : Resp) : Bool := CY_DMAC_DONE == pongResp

/-- A run of the wait loop against the stream `polls` of successive poll
results, with iteration budget `fuel`: the number of guard evaluations that
came back true before the loop fell through (`fuel` if the budget ran out
first). -/
def waitRun : (Nat → Resp) → Nat → Nat
  | _, 0 => 0
  | polls, fuel + 1 =>
    if waitGuard (polls 0) then waitRun (fun n => polls (n + 1)) fuel + 1 else 0

/-! ## Entry: platform initialisation (src/main.c lines 102-106) -/

/-- The success result code compared against at src/main.c line 103. -/
def CY_RSLT_SUCCESS : Nat := 0

/-- How a run of `main` ends: halted in `CY_ASSERT(0)`, spinning in the
final `for(;;)` loop, or returning a value to a caller. -/
inductive Outcome
  | haltedAssert
  | idleForever
  | returned (code : Int)
deriving DecidableEq, Repr

/-- A whole run of `main` as its outcome and console byte stream, given the
result of `cybsp_init` and the destination contents `d1`, `d2` read back in
the reporting phase.  `CY_ASSERT(0)` is modelled from the spec ("a hard
assertion/halt") as halting the program; all console output comes after the
UART is enabled at src/main.c lines 131-132, so a run halted at line 105
has emitted nothing. -/
def mainRun (initResult : Nat) (d1 d2 : List Nat) : Outcome × List Nat :=
  if initResult ≠ CY_RSLT_SUCCESS then (.haltedAssert, [])
  else (.idleForever, mainEmits d1 d2)

/-! ## The inductive invariant of the transfer -/

/-- The invariant maintained by every transition: sources are never
written; nothing retires before the trigger; each destination holds its
initial zeros until its descriptor retires and a copy of its bound source
afterwards; pong never retires before ping. -/
def Inv (s : DmaState) : Prop :=
  s.src1 = g_region1Src ∧ s.src2 = g_region2Src ∧
  (s.triggered = false → s.ping = .pending ∧ s.pong = .pending) ∧
  (s.ping = .pending → s.dst1 = g_region1Dst) ∧
  (s.ping = .done → s.dst1 = g_region1Src) ∧
  (s.pong = .pending → s.dst2 = g_region2Dst) ∧
  (s.pong = .done → s.dst2 = g_region2Src ∧ s.ping = .done)

theorem take_g_region1Src : g_region1Src.take DMAC_TRANSFER_SIZE = g_region1Src := by
  decide

theorem take_g_region2Src : g_region2Src.take DMAC_TRANSFER_SIZE = g_region2Src := by
  decide

theorem inv_init : Inv initState := by
  refine ⟨rfl, rfl, fun _ => ⟨rfl, rfl⟩, fun _ => rfl, ?_, fun _ => rfl, ?_⟩ <;>
    intro hf <;> exact Resp.noConfusion hf

theorem inv_step {s t : DmaState} (h : Inv s) (hst : DmaStep s t) : Inv t := by
  obtain ⟨h1, h2, h3, h4, h5, h6, h7⟩ := h
  cases hst with
  | trigger =>
      exact ⟨h1, h2, fun hf => Bool.noConfusion hf, h4, h5, h6, h7⟩
  | execPing ht hp =>
      refine ⟨h1, h2, ?_, ?_, ?_, h6, ?_⟩
      · intro hf
        exact Bool.noConfusion (ht.symm.trans hf)
      · intro hf
        exact Resp.noConfusion hf
      · intro _
        show s.src1.take DMAC_TRANSFER_SIZE = g_region1Src
        rw [h1]
        exact take_g_region1Src
      · intro hf
        exact ⟨(h7 hf).1, rfl⟩
  | execPong hd hp =>
      refine ⟨h1, h2, ?_, h4, ?_, ?_, ?_⟩
      · intro hf
        exact Resp.noConfusion (hd.symm.trans (h3 hf).1)
      · intro _
        exact h5 hd
      · intro hf
        exact Resp.noConfusion hf
      · intro _
        refine ⟨?_, hd⟩
        show s.src2.take DMAC_TRANSFER_SIZE = g_region2Src
        rw [h2]
        exact take_g_region2Src

theorem inv_of_reachable {s : DmaState} (h : Reachable s) : Inv s := by
  induction h with
  | init => exact inv_init
  | step _ hst ih => exact inv_step ih hst

/-! ## Concrete reachable states, used as evaluation points -/

/-- The state right after the software trigger. -/
def sTrig : DmaState := { initState with triggered := true }

/-- The state after the ping descriptor has retired. -/
def sPing : DmaState :=
  { sTrig with dst1 := sTrig.src1.take DMAC_TRANSFER_SIZE, ping := .done }

/-- The state after both descriptors have retired. -/
def sDone : DmaState :=
  { sPing with dst2 := sPing.src2.take DMAC_TRANSFER_SIZE, pong := .done }

theorem reach_sTrig : Reachable sTrig :=
  .step .init (.trigger initState)

theorem reach_sPing : Reachable sPing :=
  .step reach_sTrig (.execPing sTrig rfl rfl)

theorem reach_sDone : Reachable sDone :=
  .step reach_sPing (.execPong sPing rfl rfl)

theorem getD_replicate_zero : ∀ n i : Nat, (List.replicate n (0 : Nat)).getD i 0 = 0 := by
  intro n
  induction n with
  | zero => intro i; cases i <;> rfl
  | succ m ih =>
    intro i
    cases i with
    | zero => rfl
    | succ j =>
      rw [List.replicate_succ, List.getD_cons_succ]
      exact ih j

/-! ## Claims -/

/-- C1 (code bug): the wait loop at src/main.c line 147 has its guard
inverted.  The guard `CY_DMAC_DONE == Cy_DMAC_Descriptor_GetResponse(PONG)`
is false when the pong descriptor is still pending, so the loop exits at
once and the program proceeds to print while the pong descriptor is
pending; conversely a pong response reading Done keeps the loop spinning
(it performs as many iterations as any budget allows and never falls
through), contradicting the comment "Wait until transfer is over" above it
and the spec's spin-until-Done contract. -/
theorem C1_wait_loop_inverted :
    waitGuard .pending = false ∧
    waitGuard .done = true ∧
    (∀ fuel, waitRun (fun _ => .pending) fuel = 0) ∧
    (∀ fuel, waitRun (fun _ => .done) fuel = fuel) := by
  refine ⟨rfl, rfl, ?_, ?_⟩
  · intro fuel
    cases fuel <;> rfl
  · intro fuel
    induction fuel with
    | zero => rfl
    | succ f ih => simp [waitRun, ih, show waitGuard Resp.done = true from rfl]

/-- C2 as stated is false: the program's final emitted line is not the
literal "- DMA transfer is completed." — src/main.c line 193 prints
"- DMA transfer is completed. " with a trailing space before the newline.
Neither that literal alone nor that literal followed by the newline is a
suffix of the output, while the trailing-space variant is. -/
theorem C2_final_line_counterexample :
    ¬ strB "- DMA transfer is completed." <:+
        mainEmits (List.replicate 16 0) (List.replicate 16 0) ∧
    ¬ strB "- DMA transfer is completed.\r\n" <:+
        mainEmits (List.replicate 16 0) (List.replicate 16 0) ∧
    strB "- DMA transfer is completed. \r\n" <:+
        mainEmits (List.replicate 16 0) (List.replicate 16 0) := by
  decide

/-- C2 (amended): for every run reaching the reporting phase, the console
output consists, in order, of the ANSI clear-screen sequence, the banner
block, "PING source = " followed by the 16 ping source bytes, a newline,
"PING destination = " followed by the 16 ping destination bytes, a
newline, "PONG source = " followed by the 16 pong source bytes in reverse
order, a newline, "PONG destination = " followed by the 16 pong
destination bytes in reverse order, a newline, and the final emitted line
"- DMA transfer is completed. " — with a trailing space before the
newline. -/
theorem C2_output_order (d1 d2 : List Nat)
    (h1 : d1.length = 16) (h2 : d2.length = 16) :
    mainEmits d1 d2 =
      strB "\x1b[2J\x1b[;H"
      ++ strB "************************************************************\r\n"
      ++ strB "DMA Data Transfer with Descriptor Chain \r\n"
      ++ strB "************************************************************\r\n\n"
      ++ strB "PING source = " ++ g_region1Src ++ strB "\r\n"
      ++ strB "PING destination = " ++ d1 ++ strB "\r\n"
      ++ strB "PONG source = " ++ g_region2Src.reverse ++ strB "\r\n"
      ++ strB "PONG destination = " ++ d2.reverse ++ strB "\r\n"
      ++ (strB "- DMA transfer is completed. " ++ strB "\r\n") ∧
    (strB "- DMA transfer is completed. " ++ strB "\r\n") <:+ mainEmits d1 d2 := by
  have hsrc1 : printFwd g_region1Src = g_region1Src :=
    printFwd_of_len16 g_region1Src (by decide)
  have hsrc2 : printRev g_region2Src = g_region2Src.reverse :=
    printRev_of_len16 g_region2Src (by decide)
  have hd1 : printFwd d1 = d1 := printFwd_of_len16 d1 h1
  have hd2 : printRev d2 = d2.reverse := printRev_of_len16 d2 h2
  have hsplit : strB "- DMA transfer is completed. \r\n" =
      strB "- DMA transfer is completed. " ++ strB "\r\n" := by decide
  have he : mainEmits d1 d2 =
      strB "\x1b[2J\x1b[;H"
      ++ strB "************************************************************\r\n"
      ++ strB "DMA Data Transfer with Descriptor Chain \r\n"
      ++ strB "************************************************************\r\n\n"
      ++ strB "PING source = " ++ g_region1Src ++ strB "\r\n"
      ++ strB "PING destination = " ++ d1 ++ strB "\r\n"
      ++ strB "PONG source = " ++ g_region2Src.reverse ++ strB "\r\n"
      ++ strB "PONG destination = " ++ d2.reverse ++ strB "\r\n"
      ++ (strB "- DMA transfer is completed. " ++ strB "\r\n") := by
    unfold mainEmits
    rw [hsrc1, hsrc2, hd1, hd2, hsplit]
  refine ⟨he, ?_⟩
  rw [he]
  exact List.suffix_append _ _

/-- C2 witness: the amended statement instantiated at concrete destination
contents. -/
theorem C2_output_order_witness :
    (List.range 16).length = 16 ∧
    (List.replicate 16 (0 : Nat)).length = 16 ∧
    (mainEmits (List.range 16) (List.replicate 16 0) =
      strB "\x1b[2J\x1b[;H"
      ++ strB "************************************************************\r\n"
      ++ strB "DMA Data Transfer with Descriptor Chain \r\n"
      ++ strB "************************************************************\r\n\n"
      ++ strB "PING source = " ++ g_region1Src ++ strB "\r\n"
      ++ strB "PING destination = " ++ List.range 16 ++ strB "\r\n"
      ++ strB "PONG source = " ++ g_region2Src.reverse ++ strB "\r\n"
      ++ strB "PONG destination = " ++ (List.replicate 16 (0 : Nat)).reverse ++ strB "\r\n"
      ++ (strB "- DMA transfer is completed. " ++ strB "\r\n") ∧
    (strB "- DMA transfer is completed. " ++ strB "\r\n") <:+
        mainEmits (List.range 16) (List.replicate 16 0)) :=
  ⟨by decide, by decide,
    C2_output_order (List.range 16) (List.replicate 16 0) (by decide) (by decide)⟩

/-- C3: in every reachable state of the transfer in which the completion
flag of the last (pong) descriptor of the chain reads Done, every one of
the 16 bytes of each destination region equals the corresponding byte of
its bound source region, for both the ping and the pong pair. -/
theorem C3_copy_correctness (s : DmaState) (h : Reachable s)
    (hd : s.pong = .done) :
    (∀ i, i < 16 → s.dst1.getD i 0 = s.src1.getD i 0) ∧
    (∀ i, i < 16 → s.dst2.getD i 0 = s.src2.getD i 0) := by
  obtain ⟨h1, h2, _, _, h5, _, h7⟩ := inv_of_reachable h
  obtain ⟨hdst2, hping⟩ := h7 hd
  have hdst1 := h5 hping
  refine ⟨?_, ?_⟩ <;> intro i _
  · rw [hdst1, h1]
  · rw [hdst2, h2]

/-- C3 witness: the copy-correctness conclusion at the concrete state in
which both descriptors have retired. -/
theorem C3_copy_correctness_witness :
    sDone.pong = .done ∧
    ((∀ i, i < 16 → sDone.dst1.getD i 0 = sDone.src1.getD i 0) ∧
     (∀ i, i < 16 → sDone.dst2.getD i 0 = sDone.src2.getD i 0)) :=
  ⟨rfl, C3_copy_correctness sDone reach_sDone rfl⟩

/-- C4: the byte sequences printed after "PONG source = " and
"PONG destination = " are exactly the byte-reverse (index 15 down to 0) of
the corresponding 16-byte buffers, while the sequences printed after
"PING source = " and "PING destination = " are the buffers in forward
index order. -/
theorem C4_print_orders (d1 d2 : List Nat)
    (h1 : d1.length = 16) (h2 : d2.length = 16) :
    printFwd g_region1Src = g_region1Src ∧
    printFwd d1 = d1 ∧
    printRev g_region2Src = g_region2Src.reverse ∧
    printRev d2 = d2.reverse :=
  ⟨printFwd_of_len16 g_region1Src (by decide), printFwd_of_len16 d1 h1,
   printRev_of_len16 g_region2Src (by decide), printRev_of_len16 d2 h2⟩

/-- C4 witness: the print orders at concrete 16-byte buffers. -/
theorem C4_print_orders_witness :
    (List.range 16).length = 16 ∧
    (List.replicate 16 (7 : Nat)).length = 16 ∧
    (printFwd g_region1Src = g_region1Src ∧
     printFwd (List.range 16) = List.range 16 ∧
     printRev g_region2Src = g_region2Src.reverse ∧
     printRev (List.replicate 16 (7 : Nat)) = (List.replicate 16 (7 : Nat)).reverse) :=
  ⟨by decide, by decide,
    C4_print_orders (List.range 16) (List.replicate 16 7) (by decide) (by decide)⟩

/-- C5: in every reachable state in which the software trigger has not yet
been issued, both destination regions hold their initial all-zero contents,
reading zero at every one of their 16 indices. -/
theorem C5_prestate_zero (s : DmaState) (h : Reachable s)
    (ht : s.triggered = false) :
    s.dst1 = List.replicate 16 0 ∧ s.dst2 = List.replicate 16 0 ∧
    (∀ i, i < 16 → s.dst1.getD i 0 = 0) ∧ (∀ i, i < 16 → s.dst2.getD i 0 = 0) := by
  obtain ⟨_, _, h3, h4, _, h6, _⟩ := inv_of_reachable h
  obtain ⟨hping, hpong⟩ := h3 ht
  have d1 := h4 hping
  have d2 := h6 hpong
  refine ⟨d1, d2, ?_, ?_⟩ <;> intro i _
  · rw [d1]
    exact getD_replicate_zero 16 i
  · rw [d2]
    exact getD_replicate_zero 16 i

/-- C5 witness: the pre-trigger all-zero conclusion at the initial state. -/
theorem C5_prestate_zero_witness :
    initState.triggered = false ∧
    (initState.dst1 = List.replicate 16 0 ∧ initState.dst2 = List.replicate 16 0 ∧
     (∀ i, i < 16 → initState.dst1.getD i 0 = 0) ∧
     (∀ i, i < 16 → initState.dst2.getD i 0 = 0)) :=
  ⟨rfl, C5_prestate_zero initState .init rfl⟩

/-- C6: the source regions are never mutated by any operation of the
program: every reachable state — in particular the state before the
configure/enable/trigger/poll/print sequence and the state after it —
holds exactly the initial source contents (and the reporting phase only
reads them). -/
theorem C6_sources_immutable (s : DmaState) (h : Reachable s) :
    s.src1 = g_region1Src ∧ s.src2 = g_region2Src ∧
    s.src1 = initState.src1 ∧ s.src2 = initState.src2 := by
  obtain ⟨h1, h2, _⟩ := inv_of_reachable h
  exact ⟨h1, h2, h1, h2⟩

/-- C6 witness: source immutability at the state after both copies. -/
theorem C6_sources_immutable_witness :
    sDone.src1 = g_region1Src ∧ sDone.src2 = g_region2Src ∧
    sDone.src1 = initState.src1 ∧ sDone.src2 = initState.src2 :=
  C6_sources_immutable sDone reach_sDone

/-- C7: chain ordering — in every reachable state of the transfer, if the
pong descriptor's completion flag reads Done then the ping descriptor's
completion flag reads Done: pong never retires before ping. -/
theorem C7_chain_ordering (s : DmaState) (h : Reachable s)
    (hd : s.pong = .done) : s.ping = .done :=
  ((inv_of_reachable h).2.2.2.2.2.2 hd).2

/-- C7 witness: the ordering conclusion at the concrete completed state. -/
theorem C7_chain_ordering_witness :
    sDone.pong = .done ∧ sDone.ping = .done :=
  ⟨rfl, C7_chain_ordering sDone reach_sDone rfl⟩

/-- C8: if platform initialisation fails (`cybsp_init` returns a result
other than `CY_RSLT_SUCCESS`), the run halts in the hard assertion having
produced no console output; and no run of `main` ever ends by returning a
value to a caller. -/
theorem C8_init_failure_halts (r : Nat) (d1 d2 : List Nat)
    (hr : r ≠ CY_RSLT_SUCCESS) :
    mainRun r d1 d2 = (.haltedAssert, []) ∧
    ∀ (r' : Nat) (c : Int), (mainRun r' d1 d2).1 ≠ .returned c := by
  constructor
  · unfold mainRun
    rw [if_pos hr]
  · intro r' c
    unfold mainRun
    split <;> simp

/-- C8 witness: the halt-with-no-output conclusion at a concrete failing
initialisation result. -/
theorem C8_init_failure_halts_witness :
    (1 : Nat) ≠ CY_RSLT_SUCCESS ∧
    (mainRun 1 [] [] = (.haltedAssert, []) ∧
     ∀ (r' : Nat) (c : Int), (mainRun r' [] []).1 ≠ .returned c) :=
  ⟨by decide, C8_init_failure_halts 1 [] [] (by decide)⟩

/-- C9: a PONG print loop run with any iteration budget of at least 16
produces exactly the index trace 15, 14, …, 0 — 16 iterations, each index
in range and visited once — and stops because the unsigned 32-bit
decrement of 0 wraps to 2^32 - 1, which falsifies the guard i < 16. -/
theorem C9_pong_loop_termination (fuel : Nat) (hf : 16 ≤ fuel) :
    loopFrom fuel 15 = (List.range 16).reverse ∧
    (loopFrom fuel 15).length = 16 ∧
    (loopFrom fuel 15).Nodup ∧
    (∀ j ∈ loopFrom fuel 15, j < DMAC_TRANSFER_SIZE) ∧
    dec32 0 = 2 ^ 32 - 1 ∧ ¬ dec32 0 < DMAC_TRANSFER_SIZE := by
  have h := loopFrom_eval 15 (by decide) fuel (by omega)
  refine ⟨h, ?_, ?_, ?_, dec32_zero, by rw [dec32_zero]; decide⟩
  · rw [h]; decide
  · rw [h]; decide
  · rw [h]; decide

/-- C9 witness: the loop trace at the exact budget of 16 iterations. -/
theorem C9_pong_loop_termination_witness :
    16 ≤ 16 ∧
    (loopFrom 16 15 = (List.range 16).reverse ∧
     (loopFrom 16 15).length = 16 ∧
     (loopFrom 16 15).Nodup ∧
     (∀ j ∈ loopFrom 16 15, j < DMAC_TRANSFER_SIZE) ∧
     dec32 0 = 2 ^ 32 - 1 ∧ ¬ dec32 0 < DMAC_TRANSFER_SIZE) :=
  ⟨by decide, C9_pong_loop_termination 16 (by decide)⟩

/-- C10: each source region is exactly the 16 ASCII bytes of
"PSoC4_HVMS-DMADC" with no trailing NUL: its length is exactly
`DMAC_TRANSFER_SIZE` = 16, its bytes are the 16 character codes, none of
its bytes is 0, and a 16-byte transfer or print of it handles exactly
these bytes. -/
theorem C10_source_sixteen_ascii_no_nul :
    DMAC_TRANSFER_SIZE = 16 ∧
    g_region1Src = strB "PSoC4_HVMS-DMADC" ∧
    g_region2Src = strB "PSoC4_HVMS-DMADC" ∧
    g_region1Src = [80, 83, 111, 67, 52, 95, 72, 86, 77, 83, 45, 68, 77, 65, 68, 67] ∧
    g_region2Src = [80, 83, 111, 67, 52, 95, 72, 86, 77, 83, 45, 68, 77, 65, 68, 67] ∧
    g_region1Src.length = DMAC_TRANSFER_SIZE ∧
    g_region2Src.length = DMAC_TRANSFER_SIZE ∧
    (∀ b ∈ g_region1Src, b ≠ 0) ∧
    (∀ b ∈ g_region2Src, b ≠ 0) ∧
    g_region1Src.take DMAC_TRANSFER_SIZE = g_region1Src ∧
    g_region2Src.take DMAC_TRANSFER_SIZE = g_region2Src ∧
    (printFwd g_region1Src).length = 16 ∧
    (printRev g_region2Src).length = 16 := by
  decide

end DmaChain
